import Mathlib

/-!
# Verification of the zodson bidirectional schema converter

A shallow embedding of the zodson library (`src/types.ts`): the forward
converter `zodToBsonSchema` (validation-schema tree to BSON-schema
descriptor), the wrapper `createMongoValidator`, and the reverse converter
`mongoSchemaToZod`.  The embedding follows the current variant of the
source (the one that widens nullable wrappers into a `oneOf` with a `null`
member and emits numeric alternatives), which is the variant the claims
reference.

Conventions of the embedding:
* TypeScript `throw` becomes `Except String`.
* Object-literal field bags become dedicated constructors holding exactly
  the optional fields that the converter functions read or write; optional
  fields that no code path touches (`description`, `title`,
  `patternProperties`, `dependencies`, `additionalItems`, `binaryType`)
  are omitted.
* The zod library's run-time validation of a parsed value is modelled by
  `zodAccepts`; refinement closures attached by the converter
  (`uniqueItems`, `minProperties`/`maxProperties`) are represented by
  dedicated constructors carrying exactly the data the closures capture.
-/

namespace Zodson

/-- The shared identifier-pattern literal `objectIdPattern` of the source:
24 hexadecimal characters. -/
def objectIdPattern : String := "^[0-9a-fA-F]\x7b24\x7d$"

/-- The fixed email-matching pattern string that the forward converter
substitutes for zod's email-format check. -/
def emailPattern : String :=
  "^[a-zA-Z0-9._%+-]+@[a-zA-Z0-9.-]+\\.[a-zA-Z]\x7b2,\x7d$"

/-- A zod string check (`zodSchema._def.checks` entries for `ZodString`).
`min`/`max`/`regex`/`email` are the kinds the converter reads; `uuid` is
produced by the reverse converter for the `uuid` BSON kind and is ignored
by the forward converter's switch (it has no case for it). -/
inductive StringCheck where
  | min (value : Nat)
  | max (value : Nat)
  | regex (source : String)
  | email
  | uuid
deriving BEq, DecidableEq, Repr

/-- A zod number check (`zodSchema._def.checks` entries for `ZodNumber`). -/
inductive NumberCheck where
  | min (value : Int)
  | max (value : Int)
  | multipleOf (value : Int)
  | int
deriving BEq, DecidableEq, Repr

/-- The numeric BSON kinds (`'number' | 'double' | 'int' | 'long' |
'decimal'`, the `bsonType` values of `TMongoSchemaNumber`). -/
inductive NumberKind where
  | number
  | double
  | int
  | long
  | decimal
deriving BEq, DecidableEq, Repr

/-- Unknown-key policy of a zod object schema.  The reverse converter only
ever produces `.strict` (from `additionalProperties: false`) or
`.passthrough`; zod's default strip mode accepts exactly the values that
passthrough accepts, so it needs no separate constructor. -/
inductive UnknownKeys where
  | strict
  | passthrough
deriving BEq, DecidableEq, Repr

/-- The zod schema tree, covering every `instanceof` branch of the forward
converter plus every schema shape the reverse converter constructs.
`zUniqueRefine`, `zMinMaxPropsRefine` and `zBase64Transform` stand for the
`ZodEffects` values built by `.refine`, `.superRefine` and `.transform` at
the three call sites in the source, carrying exactly the data the attached
closures capture.  `zOther` stands for any other run-time zod class (it
carries the constructor name) and reaches the forward converter's final
`throw`. -/
inductive ZodSchema where
  | zOptional (inner : ZodSchema)
  | zNullable (inner : ZodSchema)
  | zUndef
  | zUnion (options : List ZodSchema)
  | zObject (shape : List (String × ZodSchema)) (unknownKeys : UnknownKeys)
  | zRecord (valueType : ZodSchema)
  | zArray (element : ZodSchema) (minLength maxLength : Option Nat)
  | zString (checks : List StringCheck)
  | zNumber (checks : List NumberCheck)
  | zBoolean
  | zDate
  | zEnum (values : List String)
  | zNativeEnum (values : List String)
  | zAny
  | zUniqueRefine (inner : ZodSchema)
  | zMinMaxPropsRefine (inner : ZodSchema) (minProperties maxProperties : Option Nat)
  | zBase64Transform (inner : ZodSchema)
  | zOther (name : String)

/-- The BSON-schema descriptor tree (`TMongoSchema`).  `oneOfS` is the
Alternatives form (`TMongoSchemaOneOf`); `emptyS` is the bare `{}`
descriptor the forward converter returns for `ZodAny`/`ZodUndefined`;
`otherS` covers the `TBsonTypes` kinds (`regex`, `timestamp`, `mixed`) for
which no dedicated descriptor variant and no reverse branch exists.  In
`objectS` the `properties` field is optional because the `ZodRecord`
branch of the forward converter emits an object descriptor without it. -/
inductive MongoSchema where
  | oneOfS (schemas : List MongoSchema)
  | emptyS
  | arrayS (items : MongoSchema ⊕ List MongoSchema)
      (minItems maxItems : Option Nat) (uniqueItems : Option Bool)
  | boolS
  | numberS (kind : NumberKind) (multipleOf minimum maximum : Option Int)
  | objectS (required : Option (List String))
      (properties : Option (List (String × MongoSchema)))
      (minProperties maxProperties : Option Nat)
      (additionalProperties : Option (Bool ⊕ MongoSchema))
  | objectIdS
  | stringS (minLength maxLength : Option Nat) (pattern : Option String)
      (enumValues : Option (List String))
  | uuidS
  | binDataS
  | dateS
  | nullS
  | otherS (kind : String)

/-- The validator configuration returned by `createMongoValidator`: a
structure with exactly one field, modelling the single-key object
`{ $jsonSchema: ... }`. -/
structure MongoValidator where
  jsonSchema : MongoSchema

/-- `zodSchema instanceof z.ZodOptional`, the test the object branch of
the forward converter applies to each field before recursing. -/
def isZodOptional : ZodSchema → Bool
  | .zOptional _ => true
  | _ => false

/-- The `checks.some(check => check.kind === 'regex' && check.regex.source
=== objectIdPattern)` test that triggers the objectId special case. -/
def hasObjectIdRegex (checks : List StringCheck) : Bool :=
  checks.any fun c =>
    match c with
    | .regex source => source == objectIdPattern
    | _ => false

/-- The `checks.forEach` loop of the forward converter's string branch:
each check writes its field of the string descriptor under construction
(`min` to `minLength`, `max` to `maxLength`, `regex` and `email` both to
`pattern`); a `uuid` check matches no case of the switch. -/
def stringAfterChecks : List StringCheck → Option Nat → Option Nat →
    Option String → MongoSchema
  | [], minLength, maxLength, pattern =>
      .stringS minLength maxLength pattern none
  | .min v :: checks, _, maxLength, pattern =>
      stringAfterChecks checks (some v) maxLength pattern
  | .max v :: checks, minLength, _, pattern =>
      stringAfterChecks checks minLength (some v) pattern
  | .regex source :: checks, minLength, maxLength, _ =>
      stringAfterChecks checks minLength maxLength (some source)
  | .email :: checks, minLength, maxLength, _ =>
      stringAfterChecks checks minLength maxLength (some emailPattern)
  | .uuid :: checks, minLength, maxLength, pattern =>
      stringAfterChecks checks minLength maxLength pattern

/-- `{...type, minimum: v}` applied to a numeric alternative. -/
def setMinimum (v : Int) : MongoSchema → MongoSchema
  | .numberS kind multipleOf _ maximum => .numberS kind multipleOf (some v) maximum
  | m => m

/-- `{...type, maximum: v}` applied to a numeric alternative. -/
def setMaximum (v : Int) : MongoSchema → MongoSchema
  | .numberS kind multipleOf minimum _ => .numberS kind multipleOf minimum (some v)
  | m => m

/-- The filter predicate `type.bsonType === 'int' || type.bsonType ===
'long'` of the forward converter's number branch. -/
def isIntOrLong : MongoSchema → Bool
  | .numberS kind _ _ _ => kind == .int || kind == .long
  | _ => false

/-- The `checks.forEach` loop of the forward converter's number branch:
`min` and `max` are mapped onto every alternative, an `int` check filters
the alternatives down to the `int`/`long` kinds, and the switch has no
case for `multipleOf` (the check is silently dropped). -/
def numberAfterChecks : List NumberCheck → List MongoSchema → List MongoSchema
  | [], alts => alts
  | .min v :: checks, alts => numberAfterChecks checks (alts.map (setMinimum v))
  | .max v :: checks, alts => numberAfterChecks checks (alts.map (setMaximum v))
  | .int :: checks, alts => numberAfterChecks checks (alts.filter isIntOrLong)
  | .multipleOf _ :: checks, alts => numberAfterChecks checks alts

/-- The initial alternatives list of the forward converter's number
branch: the four numeric kinds, carrying no constraints. -/
def initNumberAlts : List MongoSchema :=
  [.numberS .int none none none, .numberS .long none none none,
   .numberS .double none none none, .numberS .decimal none none none]

mutual

/-- The forward converter `zodToBsonSchema` of `src/types.ts` (the
current variant: nullable widening to a `oneOf` with a `null` member,
union support, numeric alternatives). -/
def zodToBsonSchema : ZodSchema → Except String MongoSchema
  | .zOptional inner => zodToBsonSchema inner
  | .zNullable inner =>
      match zodToBsonSchema inner with
      | .ok innerSchema => .ok (.oneOfS [.nullS, innerSchema])
      | .error e => .error e
  | .zUndef => .ok .emptyS
  | .zUnion options =>
      match zodToBsonList options with
      | .ok descriptors => .ok (.oneOfS descriptors)
      | .error e => .error e
  | .zObject shape _ =>
      match zodToBsonShape shape with
      | .ok properties =>
          let required := (shape.filter fun kv => !isZodOptional kv.2).map Prod.fst
          .ok (.objectS (if required.isEmpty then none else some required)
            (some properties) none none none)
      | .error e => .error e
  | .zRecord valueType =>
      match zodToBsonSchema valueType with
      | .ok d => .ok (.objectS none none none none (some (.inr d)))
      | .error e => .error e
  | .zArray element minLength maxLength =>
      match zodToBsonSchema element with
      | .ok d => .ok (.arrayS (.inl d) minLength maxLength none)
      | .error e => .error e
  | .zString checks =>
      if hasObjectIdRegex checks then .ok .objectIdS
      else .ok (stringAfterChecks checks none none none)
  | .zNumber checks => .ok (.oneOfS (numberAfterChecks checks initNumberAlts))
  | .zBoolean => .ok .boolS
  | .zDate => .ok .dateS
  | .zEnum values => .ok (.stringS none none none (some values))
  | .zNativeEnum values => .ok (.stringS none none none (some values))
  | .zAny => .ok .emptyS
  | .zUniqueRefine _ => .error ("Unsupported Zod type: " ++ "ZodEffects")
  | .zMinMaxPropsRefine _ _ _ => .error ("Unsupported Zod type: " ++ "ZodEffects")
  | .zBase64Transform _ => .error ("Unsupported Zod type: " ++ "ZodEffects")
  | .zOther name => .error ("Unsupported Zod type: " ++ name)

/-- Conversion of a list of zod schemas in order, propagating the first
failure (the `options.map(...)` of the union branch). -/
def zodToBsonList : List ZodSchema → Except String (List MongoSchema)
  | [] => .ok []
  | z :: zs =>
      match zodToBsonSchema z with
      | .ok d =>
          match zodToBsonList zs with
          | .ok ds => .ok (d :: ds)
          | .error e => .error e
      | .error e => .error e

/-- The `for (const [key, value] of Object.entries(shape))` loop of the
object branch: convert each field in insertion order. -/
def zodToBsonShape : List (String × ZodSchema) →
    Except String (List (String × MongoSchema))
  | [] => .ok []
  | (key, z) :: rest =>
      match zodToBsonSchema z with
      | .ok d =>
          match zodToBsonShape rest with
          | .ok ds => .ok ((key, d) :: ds)
          | .error e => .error e
      | .error e => .error e

end

/-- `createMongoValidator`: wrap the forward conversion result under the
single `$jsonSchema` key. -/
def createMongoValidator (zodSchema : ZodSchema) : Except String MongoValidator :=
  match zodToBsonSchema zodSchema with
  | .ok d => .ok { jsonSchema := d }
  | .error e => .error e

/-- The exported constant `zodObjectId = z.string().regex(new
RegExp(objectIdPattern))`, which the reverse converter returns for the
`objectId` kind. -/
def zodObjectId : ZodSchema := .zString [.regex objectIdPattern]

/-- The check list of the zod string schema the reverse converter's string
branch builds by chaining `.min`, `.max`, `.regex` in that order. -/
def stringChecksOf (minLength maxLength : Option Nat) (pattern : Option String) :
    List StringCheck :=
  (match minLength with | some v => [.min v] | none => []) ++
  (match maxLength with | some v => [.max v] | none => []) ++
  (match pattern with | some source => [.regex source] | none => [])

/-- The check list of the zod number schema the reverse converter's number
branch builds by chaining `.int` (for the `int`/`long` kinds), `.min`,
`.max`, `.multipleOf` in that order. -/
def numberChecksOf (kind : NumberKind) (multipleOf minimum maximum : Option Int) :
    List NumberCheck :=
  (if kind == .int || kind == .long then [.int] else []) ++
  (match minimum with | some v => [.min v] | none => []) ++
  (match maximum with | some v => [.max v] | none => []) ++
  (match multipleOf with | some v => [.multipleOf v] | none => [])

mutual

/-- The reverse converter `mongoSchemaToZod` of `src/types.ts` (the
current variant).  Dispatch order follows the source: the `oneOf` shape
first, then `array`, `object`, `string`, `bool`, `objectId`, `date`,
`uuid`, `binData`, the numeric kinds, and finally the `Unsupported BSON
type` throw.  The `properties = none` case of an object descriptor models
the `TypeError` that `Object.entries(undefined)` raises at run time. -/
def mongoSchemaToZod : MongoSchema → Except String ZodSchema
  | .oneOfS schemas =>
      match mongoListToZod schemas with
      | .ok zs => .ok (.zUnion zs)
      | .error e => .error e
  | .arrayS items minItems maxItems uniqueItems =>
      match mongoItemsToZod items with
      | .ok element =>
          if uniqueItems == some true then
            .ok (.zUniqueRefine (.zArray element minItems maxItems))
          else
            .ok (.zArray element minItems maxItems)
      | .error e => .error e
  | .objectS required properties minProperties maxProperties additionalProperties =>
      match properties with
      | none => .error ("TypeError: Cannot convert undefined or null to object")
      | some props =>
          match mongoShapeToZod (required.getD []) props with
          | .ok shape =>
              let strictFlag : Bool :=
                match additionalProperties with
                | some (.inl false) => true
                | _ => false
              let baseSchema : ZodSchema :=
                .zObject shape (if strictFlag then .strict else .passthrough)
              if minProperties == none && maxProperties == none then
                .ok baseSchema
              else
                .ok (.zMinMaxPropsRefine baseSchema minProperties maxProperties)
          | .error e => .error e
  | .stringS minLength maxLength pattern enumValues =>
      match enumValues with
      | some values => .ok (.zEnum values)
      | none => .ok (.zString (stringChecksOf minLength maxLength pattern))
  | .boolS => .ok .zBoolean
  | .objectIdS => .ok zodObjectId
  | .dateS => .ok .zDate
  | .uuidS => .ok (.zString [.uuid])
  | .binDataS => .ok (.zBase64Transform (.zString []))
  | .numberS kind multipleOf minimum maximum =>
      .ok (.zNumber (numberChecksOf kind multipleOf minimum maximum))
  | .nullS => .error ("Unsupported BSON type: " ++ "null")
  | .emptyS => .error ("Unsupported BSON type: " ++ "undefined")
  | .otherS kind => .error ("Unsupported BSON type: " ++ kind)

/-- The `items` handling of the array branch: a single descriptor is
converted directly, a one-element list is treated as a single descriptor,
and a longer list becomes a union of the converted members. -/
def mongoItemsToZod : MongoSchema ⊕ List MongoSchema → Except String ZodSchema
  | .inl node => mongoSchemaToZod node
  | .inr [node] => mongoSchemaToZod node
  | .inr nodes =>
      match mongoListToZod nodes with
      | .ok zs => .ok (.zUnion zs)
      | .error e => .error e

/-- Conversion of a list of descriptors in order, propagating the first
failure (the `.map(mongoSchemaToZod)` of the `oneOf` and multi-items
branches). -/
def mongoListToZod : List MongoSchema → Except String (List ZodSchema)
  | [] => .ok []
  | m :: ms =>
      match mongoSchemaToZod m with
      | .ok z =>
          match mongoListToZod ms with
          | .ok zs => .ok (z :: zs)
          | .error e => .error e
      | .error e => .error e

/-- The `Object.entries(mongoSchema.properties)` loop of the object
branch: convert each property and wrap it in an optional unless its key
is in the `required` set. -/
def mongoShapeToZod (required : List String) :
    List (String × MongoSchema) → Except String (List (String × ZodSchema))
  | [] => .ok []
  | (key, value) :: rest =>
      match mongoSchemaToZod value with
      | .ok fieldSchema =>
          match mongoShapeToZod required rest with
          | .ok restShape =>
              .ok ((key,
                if required.contains key then fieldSchema
                else .zOptional fieldSchema) :: restShape)
          | .error e => .error e
      | .error e => .error e

end

/-! ## Run-time values and validation semantics

The converter itself never touches data, but two claims are about the
validation behaviour of refinements the reverse converter attaches.  We
model JavaScript run-time values and the acceptance behaviour of the zod
schemas the reverse converter builds.  Objects, arrays and dates carry a
reference tag `ref` so that JavaScript's reference identity (what `Set`
membership uses for them) can be distinguished from structural
equality. -/

/-- A JavaScript run-time value.  `ref` models the allocation identity of
an object, array or date: two values with different `ref`s are distinct
objects even when their contents coincide. -/
inductive Value where
  | vUndefined
  | vNull
  | vBool (b : Bool)
  | vNum (n : Int)
  | vStr (s : String)
  | vDate (ref : Nat) (time : Int)
  | vArr (ref : Nat) (items : List Value)
  | vObj (ref : Nat) (fields : List (String × Value))

/-- JavaScript's SameValueZero equality, the equality `Set` membership
uses: primitives compare by value, objects (and arrays and dates) by
reference. -/
def sameValueZero : Value → Value → Bool
  | .vUndefined, .vUndefined => true
  | .vNull, .vNull => true
  | .vBool a, .vBool b => a == b
  | .vNum a, .vNum b => a == b
  | .vStr a, .vStr b => a == b
  | .vDate r _, .vDate r' _ => r == r'
  | .vArr r _, .vArr r' _ => r == r'
  | .vObj r _, .vObj r' _ => r == r'
  | _, _ => false

mutual

/-- Full structural (deep value) equality on run-time values, ignoring
reference identity.  Used to state that two distinct objects have equal
contents. -/
def structEq : Value → Value → Bool
  | .vUndefined, .vUndefined => true
  | .vNull, .vNull => true
  | .vBool a, .vBool b => a == b
  | .vNum a, .vNum b => a == b
  | .vStr a, .vStr b => a == b
  | .vDate _ t, .vDate _ t' => t == t'
  | .vArr _ xs, .vArr _ ys => structEqList xs ys
  | .vObj _ fs, .vObj _ gs => structEqFields fs gs
  | _, _ => false

def structEqList : List Value → List Value → Bool
  | [], [] => true
  | x :: xs, y :: ys => structEq x y && structEqList xs ys
  | _, _ => false

def structEqFields : List (String × Value) → List (String × Value) → Bool
  | [], [] => true
  | (k, x) :: xs, (k', y) :: ys => k == k' && structEq x y && structEqFields xs ys
  | _, _ => false

end

/-- Insertion into the element list of a JavaScript `Set`: a value is
added only if no already-present element is SameValueZero-equal to it. -/
def setInsert (seen : List Value) (v : Value) : List Value :=
  if seen.any (fun w => sameValueZero w v) then seen else seen ++ [v]

/-- The element list of `new Set(items)`. -/
def setOf (items : List Value) : List Value := items.foldl setInsert []

/-- The uniqueness predicate of the `uniqueItems` refinement:
`new Set(items).size === items.length`. -/
def uniquePred (items : List Value) : Bool := (setOf items).length == items.length

/-- Field lookup in an object value; a missing key reads as `undefined`,
which is what zod feeds to the field schema of an absent property. -/
def lookupField (fields : List (String × Value)) (key : String) : Value :=
  match fields.find? (fun kv => kv.1 == key) with
  | some kv => kv.2
  | none => .vUndefined

/-- Modelled from the spec: matching of a JavaScript regular expression
against a string is behaviour of the external JavaScript engine, not of
the converter (the converter treats patterns as opaque strings).  The one
pattern whose meaning the spec fixes is the identifier-pattern literal
("24 lowercase/uppercase hex characters", spec section 3), which is
modelled exactly; every other pattern is modelled as accepting, which is
sound here because no claim depends on the matching behaviour of any
other pattern. -/
def jsRegexTest (pattern : String) (s : String) : Bool :=
  if pattern == objectIdPattern then
    s.length == 24 && s.toList.all fun c =>
      c.isDigit || (('a' ≤ c && c ≤ 'f') || ('A' ≤ c && c ≤ 'F'))
  else true

/-- Whether a string satisfies one zod string check.  The `email` and
`uuid` format checks are zod-library internals outside the converter; no
claim depends on them, and they are modelled through `jsRegexTest` (which
accepts for every pattern other than the identifier pattern). -/
def stringCheckHolds (s : String) : StringCheck → Bool
  | .min v => v ≤ s.length
  | .max v => s.length ≤ v
  | .regex source => jsRegexTest source s
  | .email => jsRegexTest emailPattern s
  | .uuid => true

/-- Whether a number satisfies one zod number check.  Numbers are
modelled as integers, so the `int` check always holds; no claim depends
on fractional values. -/
def numberCheckHolds (n : Int) : NumberCheck → Bool
  | .min v => v ≤ n
  | .max v => n ≤ v
  | .multipleOf v => n % v == 0
  | .int => true

mutual

/-- Whether zod validation of a value against a schema succeeds
(`schema.safeParse(value).success`), for the schema shapes the converter
produces and consumes.  The refinement constructors carry the predicates
of the closures attached in the source: `zUniqueRefine` the
`new Set(items).size === items.length` check, `zMinMaxPropsRefine` the
`validateProperties` entry-count check. -/
def zodAccepts : ZodSchema → Value → Bool
  | .zOptional inner, v =>
      (match v with | .vUndefined => true | _ => false) || zodAccepts inner v
  | .zNullable inner, v =>
      (match v with | .vNull => true | _ => false) || zodAccepts inner v
  | .zUndef, v => match v with | .vUndefined => true | _ => false
  | .zUnion options, v => zodAcceptsAny options v
  | .zObject shape unknownKeys, v =>
      match v with
      | .vObj _ fields =>
          zodAcceptsShape shape fields &&
          (match unknownKeys with
           | .strict => fields.all fun kv => shape.any fun sk => sk.1 == kv.1
           | .passthrough => true)
      | _ => false
  | .zRecord valueType, v =>
      match v with
      | .vObj _ fields => fields.all fun kv => zodAccepts valueType kv.2
      | _ => false
  | .zArray element minLength maxLength, v =>
      match v with
      | .vArr _ items =>
          items.all (fun x => zodAccepts element x) &&
          (match minLength with | none => true | some n => n ≤ items.length) &&
          (match maxLength with | none => true | some n => items.length ≤ n)
      | _ => false
  | .zString checks, v =>
      match v with
      | .vStr s => checks.all (stringCheckHolds s)
      | _ => false
  | .zNumber checks, v =>
      match v with
      | .vNum n => checks.all (numberCheckHolds n)
      | _ => false
  | .zBoolean, v => match v with | .vBool _ => true | _ => false
  | .zDate, v => match v with | .vDate _ _ => true | _ => false
  | .zEnum values, v =>
      match v with | .vStr s => values.contains s | _ => false
  | .zNativeEnum values, v =>
      match v with | .vStr s => values.contains s | _ => false
  | .zAny, _ => true
  | .zUniqueRefine inner, v =>
      zodAccepts inner v &&
      (match v with | .vArr _ items => uniquePred items | _ => true)
  | .zMinMaxPropsRefine inner minProperties maxProperties, v =>
      zodAccepts inner v &&
      (match v with
       | .vObj _ fields =>
           (match minProperties with
            | none => true
            | some m => m ≤ fields.length) &&
           (match maxProperties with
            | none => true
            | some m => fields.length ≤ m)
       | _ => true)
  | .zBase64Transform inner, v => zodAccepts inner v
  | .zOther _, _ => false

/-- Union acceptance: some option accepts the value. -/
def zodAcceptsAny : List ZodSchema → Value → Bool
  | [], _ => false
  | s :: rest, v => zodAccepts s v || zodAcceptsAny rest v

/-- Object-shape acceptance: every declared field's schema accepts the
corresponding field value (`undefined` when the key is absent). -/
def zodAcceptsShape : List (String × ZodSchema) → List (String × Value) → Bool
  | [], _ => true
  | (key, s) :: rest, fields =>
      zodAccepts s (lookupField fields key) && zodAcceptsShape rest fields

end

/-! ## Observation helpers

Small selector functions on the two trees, used to state properties
independently of the converters' own internal folds. -/

/-- The `multipleOf` field of a numeric descriptor. -/
def msMultipleOf : MongoSchema → Option Int
  | .numberS _ multipleOf _ _ => multipleOf
  | _ => none

/-- The `minimum` field of a numeric descriptor. -/
def msMinimum : MongoSchema → Option Int
  | .numberS _ _ minimum _ => minimum
  | _ => none

/-- The `maximum` field of a numeric descriptor. -/
def msMaximum : MongoSchema → Option Int
  | .numberS _ _ _ maximum => maximum
  | _ => none

/-- The numeric kind of a numeric descriptor. -/
def msKind : MongoSchema → Option NumberKind
  | .numberS kind _ _ _ => some kind
  | _ => none

/-- The `required` name list of an object descriptor (empty when the
field is absent). -/
def msRequiredList : MongoSchema → List String
  | .objectS required _ _ _ _ => required.getD []
  | _ => []

/-- Whether a zod schema is the `superRefine` wrapper that the reverse
converter attaches for `minProperties`/`maxProperties`. -/
def isPropsRefine : ZodSchema → Bool
  | .zMinMaxPropsRefine _ _ _ => true
  | _ => false

/-- The schema underneath a `minProperties`/`maxProperties` refinement
wrapper (the schema itself when there is no such wrapper). -/
def stripPropsRefine : ZodSchema → ZodSchema
  | .zMinMaxPropsRefine inner _ _ => inner
  | s => s

/-- `some`-overriding update of an optional field: the update wins when
present, otherwise the previous value stays. -/
def overrideOpt {α : Type} (upd base : Option α) : Option α :=
  match upd with
  | some v => some v
  | none => base

/-- The value carried by the last `min` check of a number-check list. -/
def lastNumMin : List NumberCheck → Option Int
  | [] => none
  | .min v :: checks => some ((lastNumMin checks).getD v)
  | _ :: checks => lastNumMin checks

/-- The value carried by the last `max` check of a number-check list. -/
def lastNumMax : List NumberCheck → Option Int
  | [] => none
  | .max v :: checks => some ((lastNumMax checks).getD v)
  | _ :: checks => lastNumMax checks

/-- Whether a number-check list contains an integer-only (`int`) check. -/
def hasIntCheck : List NumberCheck → Bool
  | [] => false
  | .int :: _ => true
  | _ :: checks => hasIntCheck checks

/-- The value carried by the last `min` check of a string-check list. -/
def lastStrMin : List StringCheck → Option Nat
  | [] => none
  | .min v :: checks => some ((lastStrMin checks).getD v)
  | _ :: checks => lastStrMin checks

/-- The value carried by the last `max` check of a string-check list. -/
def lastStrMax : List StringCheck → Option Nat
  | [] => none
  | .max v :: checks => some ((lastStrMax checks).getD v)
  | _ :: checks => lastStrMax checks

/-- The pattern contributed by the last pattern-writing check (`regex` or
`email`) of a string-check list: `regex` contributes its source, `email`
contributes the fixed email pattern. -/
def lastStrPattern : List StringCheck → Option String
  | [] => none
  | .regex source :: checks => some ((lastStrPattern checks).getD source)
  | .email :: checks => some ((lastStrPattern checks).getD emailPattern)
  | _ :: checks => lastStrPattern checks

/-! ## Concrete instances used by counterexamples and witnesses -/

/-- A number schema whose only check is `multipleOf 5`. -/
def multipleOfFiveNumber : ZodSchema := .zNumber [.multipleOf 5]

/-- A string schema carrying both an explicit regex check and an email
check. -/
def regexAndEmailString : ZodSchema := .zString [.regex "abc", .email]

/-- An Alternatives descriptor with exactly one member. -/
def singletonOneOf : MongoSchema := .oneOfS [.boolS]

/-- The array descriptor `{bsonType: array, items: {bsonType: string},
uniqueItems: true}` of the spec's uniqueness example. -/
def uniqueStringArrayDesc : MongoSchema :=
  .arrayS (.inl (.stringS none none none none)) none none (some true)

/-- The zod schema the reverse converter produces for
`uniqueStringArrayDesc`. -/
def uniqueStringArraySchema : ZodSchema :=
  .zUniqueRefine (.zArray (.zString []) none none)

/-- An array descriptor of unique objects. -/
def uniqueObjectArrayDesc : MongoSchema :=
  .arrayS (.inl (.objectS none (some []) none none none)) none none (some true)

/-- The zod schema the reverse converter produces for
`uniqueObjectArrayDesc`. -/
def uniqueObjectArraySchema : ZodSchema :=
  .zUniqueRefine (.zArray (.zObject [] .passthrough) none none)

/-- A run-time object `{a: "x"}` with allocation identity 1. -/
def objectOne : Value := .vObj 1 [("a", .vStr "x")]

/-- A second, separately allocated run-time object `{a: "x"}` (identity
2): structurally equal to `objectOne` but a distinct object. -/
def objectTwo : Value := .vObj 2 [("a", .vStr "x")]

/-- The object descriptor of the spec's min/max-properties example:
`{bsonType: object, properties: {a: {bsonType: string}}, minProperties:
1, maxProperties: 2}` with `a` not required. -/
def minMaxPropsDesc : MongoSchema :=
  .objectS none (some [("a", .stringS none none none none)]) (some 1) (some 2) none

/-- The zod schema the reverse converter produces for `minMaxPropsDesc`. -/
def minMaxPropsSchema : ZodSchema :=
  .zMinMaxPropsRefine (.zObject [("a", .zOptional (.zString []))] .passthrough)
    (some 1) (some 2)

/-- The object shape `{a: string, b: optional(string), c:
nullable(boolean)}` of the required-field example. -/
def requiredExampleShape : List (String × ZodSchema) :=
  [("a", .zString []), ("b", .zOptional (.zString [])), ("c", .zNullable .zBoolean)]

/-- The descriptor the forward converter produces for
`requiredExampleShape`. -/
def requiredExampleDesc : MongoSchema :=
  .objectS (some ["a", "c"])
    (some [("a", .stringS none none none none), ("b", .stringS none none none none),
           ("c", .oneOfS [.nullS, .boolS])]) none none none

/-! ## Theorems -/

lemma overrideOpt_some {α : Type} (o : Option α) (v : α) :
    overrideOpt o (some v) = some (o.getD v) := by
  cases o <;> rfl

lemma overrideOpt_none {α : Type} (o : Option α) : overrideOpt o none = o := by
  cases o <;> rfl

/-- C1: a String schema node whose only active constraint is the
identifier-pattern literal converts to the bare `objectId` descriptor,
and the `objectId` descriptor converts back to a String schema node whose
single constraint is exactly the identifier pattern (not a generic,
unconstrained string). -/
theorem objectId_special_case_roundtrip (checks : List StringCheck)
    (hmem : StringCheck.regex objectIdPattern ∈ checks)
    (hall : ∀ c ∈ checks, c = StringCheck.regex objectIdPattern) :
    zodToBsonSchema (.zString checks) = .ok .objectIdS ∧
    mongoSchemaToZod .objectIdS = .ok (.zString [.regex objectIdPattern]) ∧
    ZodSchema.zString [.regex objectIdPattern] ≠ .zString [] := by
  refine ⟨?_, rfl, by simp⟩
  have hhit : hasObjectIdRegex checks = true := by
    simp only [hasObjectIdRegex, List.any_eq_true]
    exact ⟨.regex objectIdPattern, hmem, by simp⟩
  simp [zodToBsonSchema, hhit]

/-- Witness for C1 at the one-element check list. -/
theorem objectId_special_case_roundtrip_witness :
    zodToBsonSchema (.zString [.regex objectIdPattern]) = .ok .objectIdS ∧
    mongoSchemaToZod .objectIdS = .ok (.zString [.regex objectIdPattern]) ∧
    ZodSchema.zString [.regex objectIdPattern] ≠ .zString [] :=
  objectId_special_case_roundtrip [.regex objectIdPattern]
    (by simp) (by simp)

/-- C8: the validator builder wraps the forward conversion result in a
single-field structure (`MongoValidator` has exactly the one field
`jsonSchema`, modelling the single `$jsonSchema` key), the wrapped value
is the result of calling the forward converter directly, and the builder
adds no error case of its own: it fails exactly with the forward
converter's error. -/
theorem validator_wraps_forward_conversion (zodSchema : ZodSchema) :
    (∀ d, zodToBsonSchema zodSchema = .ok d →
      createMongoValidator zodSchema = .ok { jsonSchema := d }) ∧
    (∀ e, zodToBsonSchema zodSchema = .error e →
      createMongoValidator zodSchema = .error e) := by
  constructor <;> intro x hx <;> simp [createMongoValidator, hx]

/-- Witness for C8 at the boolean schema. -/
theorem validator_wraps_forward_conversion_witness :
    createMongoValidator .zBoolean = .ok { jsonSchema := .boolS } :=
  (validator_wraps_forward_conversion .zBoolean).1 .boolS rfl

/-- C9: a descriptor whose kind has no reverse mapping rule (`timestamp`,
`regex`, `mixed`, or a standalone `null`) makes the reverse converter
fail with the `Unsupported BSON type` error carrying the offending kind
string; no schema node is returned. -/
theorem unsupported_kind_fails (kind : String) :
    mongoSchemaToZod (.otherS kind) = .error ("Unsupported BSON type: " ++ kind) ∧
    mongoSchemaToZod (.otherS "timestamp") = .error "Unsupported BSON type: timestamp" ∧
    mongoSchemaToZod (.otherS "regex") = .error "Unsupported BSON type: regex" ∧
    mongoSchemaToZod (.otherS "mixed") = .error "Unsupported BSON type: mixed" ∧
    mongoSchemaToZod .nullS = .error "Unsupported BSON type: null" :=
  ⟨rfl, rfl, rfl, rfl, rfl⟩

/-- C10: the nullable-widening forward conversion of a Nullable wrapper
yields an Alternatives (`oneOf`) descriptor whose first member has kind
`null`, and feeding that very output to the reverse converter always
fails with the `Unsupported BSON type: null` error, because the
Alternatives branch converts every member and `null` has no reverse
rule — a nullable schema never round-trips. -/
theorem nullable_widening_never_roundtrips (inner : ZodSchema) (out : MongoSchema)
    (h : zodToBsonSchema (.zNullable inner) = .ok out) :
    (∃ d, out = .oneOfS [.nullS, d] ∧ zodToBsonSchema inner = .ok d) ∧
    mongoSchemaToZod out = .error "Unsupported BSON type: null" := by
  rcases heq : zodToBsonSchema inner with e | d
  · simp only [zodToBsonSchema, heq] at h
    exact absurd h (by simp)
  · simp only [zodToBsonSchema, heq] at h
    injection h with h
    subst h
    exact ⟨⟨d, rfl, rfl⟩, rfl⟩

/-- Witness for C10 at the nullable boolean. -/
theorem nullable_widening_never_roundtrips_witness :
    (∃ d, MongoSchema.oneOfS [.nullS, .boolS] = .oneOfS [.nullS, d] ∧
      zodToBsonSchema .zBoolean = .ok d) ∧
    mongoSchemaToZod (.oneOfS [.nullS, .boolS]) = .error "Unsupported BSON type: null" :=
  nullable_widening_never_roundtrips .zBoolean (.oneOfS [.nullS, .boolS]) rfl

/-- C5 counterexample: a one-member Alternatives descriptor does NOT come
back as the member's schema node directly; the reverse converter always
wraps the converted members in a Union, singleton or not. -/
theorem singleton_oneOf_keeps_union_wrapper :
    mongoSchemaToZod singletonOneOf = .ok (.zUnion [.zBoolean]) ∧
    ZodSchema.zUnion [.zBoolean] ≠ .zBoolean :=
  ⟨rfl, by simp⟩

lemma mongoListToZod_forall2 (ms : List MongoSchema) (zs : List ZodSchema)
    (h : mongoListToZod ms = .ok zs) :
    List.Forall₂ (fun m z => mongoSchemaToZod m = .ok z) ms zs := by
  induction ms generalizing zs with
  | nil =>
      simp only [mongoListToZod] at h
      injection h with h
      subst h
      exact .nil
  | cons m ms ih =>
      rcases hm : mongoSchemaToZod m with e | z
      · simp only [mongoListToZod, hm] at h
        exact absurd h (by simp)
      · rcases hms : mongoListToZod ms with e | zs'
        · simp only [mongoListToZod, hm, hms] at h
          exact absurd h (by simp)
        · simp only [mongoListToZod, hm, hms] at h
          injection h with h
          subst h
          exact .cons hm (ih zs' hms)

/-- C5 (amended): the reverse converter maps an Alternatives descriptor
to a Union schema node over the recursively converted members, in source
order, in every case — including when there is exactly one member, which
is still wrapped in a (one-option) Union rather than returned directly. -/
theorem oneOf_becomes_union (schemas : List MongoSchema) (s : ZodSchema)
    (h : mongoSchemaToZod (.oneOfS schemas) = .ok s) :
    ∃ zs, s = .zUnion zs ∧
      List.Forall₂ (fun m z => mongoSchemaToZod m = .ok z) schemas zs := by
  rcases heq : mongoListToZod schemas with e | zs
  · simp only [mongoSchemaToZod, heq] at h
    exact absurd h (by simp)
  · simp only [mongoSchemaToZod, heq] at h
    injection h with h
    subst h
    exact ⟨zs, rfl, mongoListToZod_forall2 schemas zs heq⟩

/-- Witness for the amended C5 at a two-member Alternatives node. -/
theorem oneOf_becomes_union_witness :
    ∃ zs, ZodSchema.zUnion [.zBoolean, .zDate] = .zUnion zs ∧
      List.Forall₂ (fun m z => mongoSchemaToZod m = .ok z) [.boolS, .dateS] zs :=
  oneOf_becomes_union [.boolS, .dateS] (.zUnion [.zBoolean, .zDate]) rfl

/-- C3 counterexample: a number schema whose only check is `multipleOf 5`
converts to the four-kind Alternatives node with NO `multipleOf` field on
any alternative — the forward converter's check switch has no
`multipleOf` case, so the constraint is dropped, contradicting the claim
that it is copied onto every retained alternative. -/
theorem multipleOf_is_dropped :
    zodToBsonSchema multipleOfFiveNumber = .ok (.oneOfS initNumberAlts) ∧
    initNumberAlts.all (fun m => msMultipleOf m == none) = true ∧
    initNumberAlts ≠ [] :=
  ⟨rfl, rfl, by simp [initNumberAlts]⟩

lemma overrideOpt_some_left {α : Type} (v : α) (base : Option α) :
    overrideOpt (some v) base = some v := rfl

lemma numberAfterChecks_spec (checks : List NumberCheck) (kinds : List NumberKind)
    (multipleOf minimum maximum : Option Int) :
    numberAfterChecks checks (kinds.map fun k => .numberS k multipleOf minimum maximum) =
      (if hasIntCheck checks then
        kinds.filter (fun k => k == .int || k == .long)
       else kinds).map
        (fun k => .numberS k multipleOf (overrideOpt (lastNumMin checks) minimum)
          (overrideOpt (lastNumMax checks) maximum)) := by
  induction checks generalizing kinds minimum maximum with
  | nil => simp [numberAfterChecks, lastNumMin, lastNumMax, hasIntCheck, overrideOpt]
  | cons c checks ih =>
      cases c with
      | min v =>
          rw [show numberAfterChecks (.min v :: checks)
                (kinds.map fun k => .numberS k multipleOf minimum maximum) =
              numberAfterChecks checks
                ((kinds.map fun k => .numberS k multipleOf minimum maximum).map
                  (setMinimum v)) from rfl]
          rw [List.map_map,
            show ((setMinimum v) ∘ fun k => MongoSchema.numberS k multipleOf minimum maximum) =
              fun k => MongoSchema.numberS k multipleOf (some v) maximum from
              funext fun k => rfl,
            ih]
          simp [lastNumMin, lastNumMax, hasIntCheck, overrideOpt_some, overrideOpt_some_left]
      | max v =>
          rw [show numberAfterChecks (.max v :: checks)
                (kinds.map fun k => .numberS k multipleOf minimum maximum) =
              numberAfterChecks checks
                ((kinds.map fun k => .numberS k multipleOf minimum maximum).map
                  (setMaximum v)) from rfl]
          rw [List.map_map,
            show ((setMaximum v) ∘ fun k => MongoSchema.numberS k multipleOf minimum maximum) =
              fun k => MongoSchema.numberS k multipleOf minimum (some v) from
              funext fun k => rfl,
            ih]
          simp [lastNumMin, lastNumMax, hasIntCheck, overrideOpt_some, overrideOpt_some_left]
      | multipleOf v =>
          rw [show numberAfterChecks (.multipleOf v :: checks)
                (kinds.map fun k => .numberS k multipleOf minimum maximum) =
              numberAfterChecks checks
                (kinds.map fun k => .numberS k multipleOf minimum maximum) from rfl,
            ih]
          simp [lastNumMin, lastNumMax, hasIntCheck]
      | int =>
          rw [show numberAfterChecks (.int :: checks)
                (kinds.map fun k => .numberS k multipleOf minimum maximum) =
              numberAfterChecks checks
                ((kinds.map fun k => .numberS k multipleOf minimum maximum).filter
                  isIntOrLong) from rfl]
          rw [show ((kinds.map fun k => MongoSchema.numberS k multipleOf minimum maximum).filter
                isIntOrLong) =
              ((kinds.filter fun k => k == .int || k == .long).map
                fun k => MongoSchema.numberS k multipleOf minimum maximum) from by
            rw [List.filter_map]
            rfl,
            ih]
          rw [show hasIntCheck (.int :: checks) = true from rfl,
            show lastNumMin (.int :: checks) = lastNumMin checks from rfl,
            show lastNumMax (.int :: checks) = lastNumMax checks from rfl,
            if_pos rfl]
          cases hbc : hasIntCheck checks with
          | true =>
              rw [if_pos rfl, List.filter_filter]
              congr 1
              simp
          | false =>
              rw [if_neg (by simp)]

/-- C3 (amended): for every Number schema node the forward converter
emits an Alternatives node whose members are the numeric kinds the value
could satisfy — all four of `int`/`long`/`double`/`decimal`, narrowed to
exactly `int` and `long` when an integer-only check is present — and the
`minimum` and `maximum` constraints (the last check of each kind) are
copied onto every retained alternative, while a `multipleOf` constraint
is NOT copied: the check switch has no case for it and every alternative
ends up without a `multipleOf` field. -/
theorem number_alternatives_spec (checks : List NumberCheck) :
    zodToBsonSchema (.zNumber checks) =
      .ok (.oneOfS
        ((if hasIntCheck checks then ([.int, .long] : List NumberKind)
          else [.int, .long, .double, .decimal]).map
          (fun k => .numberS k none (lastNumMin checks) (lastNumMax checks)))) ∧
    ((if hasIntCheck checks then ([.int, .long] : List NumberKind)
      else [.int, .long, .double, .decimal]).map
      (fun k => MongoSchema.numberS k none (lastNumMin checks) (lastNumMax checks))).all
      (fun m => (msMinimum m == lastNumMin checks) &&
        ((msMaximum m == lastNumMax checks) && (msMultipleOf m == none))) = true := by
  have hbase : zodToBsonSchema (.zNumber checks) =
      .ok (.oneOfS (numberAfterChecks checks initNumberAlts)) := rfl
  have hkinds : initNumberAlts =
      ([.int, .long, .double, .decimal] : List NumberKind).map
        (fun k => MongoSchema.numberS k none none none) := rfl
  have hspec := numberAfterChecks_spec checks [.int, .long, .double, .decimal] none none none
  rw [overrideOpt_none, overrideOpt_none] at hspec
  have hfil : (([.int, .long, .double, .decimal] : List NumberKind).filter
      fun k => k == .int || k == .long) = [.int, .long] := rfl
  have hmain : zodToBsonSchema (.zNumber checks) =
      .ok (.oneOfS
        ((if hasIntCheck checks then ([.int, .long] : List NumberKind)
          else [.int, .long, .double, .decimal]).map
          (fun k => .numberS k none (lastNumMin checks) (lastNumMax checks)))) := by
    rw [hbase, hkinds, hspec, hfil]
  refine ⟨hmain, ?_⟩
  rw [List.all_eq_true]
  intro m hm
  rcases List.mem_map.mp hm with ⟨k, _, rfl⟩
  simp [msMinimum, msMaximum, msMultipleOf]

/-- C4 counterexample: when a string schema carries both an explicit
regex check (source `"abc"`) and an email check, the emitted String
descriptor holds only the email pattern — both checks write the single
`pattern` field, so the explicit regex is overwritten and lost,
contradicting the claim that all active constraints appear in the
result. -/
theorem regex_and_email_do_not_compose :
    zodToBsonSchema regexAndEmailString =
      .ok (.stringS none none (some emailPattern) none) ∧
    emailPattern ≠ "abc" :=
  ⟨rfl, by decide⟩

lemma stringAfterChecks_spec (checks : List StringCheck)
    (minLength maxLength : Option Nat) (pattern : Option String) :
    stringAfterChecks checks minLength maxLength pattern =
      .stringS (overrideOpt (lastStrMin checks) minLength)
        (overrideOpt (lastStrMax checks) maxLength)
        (overrideOpt (lastStrPattern checks) pattern) none := by
  induction checks generalizing minLength maxLength pattern with
  | nil => simp [stringAfterChecks, lastStrMin, lastStrMax, lastStrPattern, overrideOpt]
  | cons c checks ih =>
      cases c with
      | min v =>
          rw [show stringAfterChecks (.min v :: checks) minLength maxLength pattern =
              stringAfterChecks checks (some v) maxLength pattern from rfl, ih]
          simp [lastStrMin, lastStrMax, lastStrPattern, overrideOpt_some, overrideOpt_some_left]
      | max v =>
          rw [show stringAfterChecks (.max v :: checks) minLength maxLength pattern =
              stringAfterChecks checks minLength (some v) pattern from rfl, ih]
          simp [lastStrMin, lastStrMax, lastStrPattern, overrideOpt_some, overrideOpt_some_left]
      | regex source =>
          rw [show stringAfterChecks (.regex source :: checks) minLength maxLength pattern =
              stringAfterChecks checks minLength maxLength (some source) from rfl, ih]
          simp [lastStrMin, lastStrMax, lastStrPattern, overrideOpt_some, overrideOpt_some_left]
      | email =>
          rw [show stringAfterChecks (.email :: checks) minLength maxLength pattern =
              stringAfterChecks checks minLength maxLength (some emailPattern) from rfl, ih]
          simp [lastStrMin, lastStrMax, lastStrPattern, overrideOpt_some, overrideOpt_some_left]
      | uuid =>
          rw [show stringAfterChecks (.uuid :: checks) minLength maxLength pattern =
              stringAfterChecks checks minLength maxLength pattern from rfl, ih]
          simp [lastStrMin, lastStrMax, lastStrPattern]

/-- C4 (amended): outside the objectId special case, the forward
converter translates each active string constraint into its own field of
the String descriptor — `min` to `minLength`, `max` to `maxLength`, and
the explicit regex pattern / email marker both to `pattern` — so
constraints of distinct fields all appear and compose, but the regex and
email constraints share the single `pattern` field: the last
pattern-writing check in source order wins and the other is lost. -/
theorem string_constraints_translate (checks : List StringCheck)
    (h : hasObjectIdRegex checks = false) :
    zodToBsonSchema (.zString checks) =
      .ok (.stringS (lastStrMin checks) (lastStrMax checks)
        (lastStrPattern checks) none) := by
  have : zodToBsonSchema (.zString checks) =
      if hasObjectIdRegex checks then .ok .objectIdS
      else .ok (stringAfterChecks checks none none none) := rfl
  rw [this, if_neg (by simp [h]), stringAfterChecks_spec,
    overrideOpt_none, overrideOpt_none, overrideOpt_none]

/-- Witness for the amended C4: a min-length, a max-length and an
explicit regex constraint all appear in the descriptor together. -/
theorem string_constraints_translate_witness :
    zodToBsonSchema (.zString [.min 1, .max 9, .regex "abc"]) =
      .ok (.stringS (some 1) (some 9) (some "abc") none) :=
  string_constraints_translate [.min 1, .max 9, .regex "abc"] (by decide)

lemma nodupKeys_eq {α : Type} {l : List (String × α)} (hnd : (l.map Prod.fst).Nodup)
    {k : String} {a b : α} (ha : (k, a) ∈ l) (hb : (k, b) ∈ l) : a = b := by
  induction l with
  | nil => cases ha
  | cons p l ih =>
      rw [List.map_cons, List.nodup_cons] at hnd
      rcases List.mem_cons.mp ha with ha0 | ha'
      · rcases List.mem_cons.mp hb with hb0 | hb'
        · have h2 : (k, a) = (k, b) := ha0.trans hb0.symm
          simpa using h2
        · cases ha0.symm
          exact absurd (List.mem_map_of_mem Prod.fst hb') hnd.1
      · rcases List.mem_cons.mp hb with hb0 | hb'
        · cases hb0.symm
          exact absurd (List.mem_map_of_mem Prod.fst ha') hnd.1
        · exact ih hnd.2 ha' hb'

/-- C6: the object descriptor produced by the forward converter lists a
field name in `required` exactly when that field's node is not an
Optional wrapper, the wrapper test being applied to the field node itself
before recursing — so a Nullable-wrapped field is still required.  The
`required` list is exactly the non-optional field names in source
order. -/
theorem required_iff_not_optional (shape : List (String × ZodSchema))
    (unknownKeys : UnknownKeys) (out : MongoSchema)
    (h : zodToBsonSchema (.zObject shape unknownKeys) = .ok out)
    (hnd : (shape.map Prod.fst).Nodup) :
    msRequiredList out = (shape.filter fun kv => !isZodOptional kv.2).map Prod.fst ∧
    ∀ key node, (key, node) ∈ shape →
      (key ∈ msRequiredList out ↔ isZodOptional node = false) := by
  rcases hsh : zodToBsonShape shape with e | properties
  · simp only [zodToBsonSchema, hsh] at h
    exact absurd h (by simp)
  · simp only [zodToBsonSchema, hsh] at h
    injection h with h
    subst h
    have hlist : msRequiredList
        (.objectS
          (if ((shape.filter fun kv => !isZodOptional kv.2).map Prod.fst).isEmpty
           then none
           else some ((shape.filter fun kv => !isZodOptional kv.2).map Prod.fst))
          (some properties) none none none) =
        (shape.filter fun kv => !isZodOptional kv.2).map Prod.fst := by
      cases hempty : ((shape.filter fun kv => !isZodOptional kv.2).map Prod.fst).isEmpty with
      | true =>
          rw [if_pos (by simp [hempty])]
          simp [msRequiredList, List.isEmpty_iff.mp hempty]
      | false =>
          rw [if_neg (by simp [hempty])]
          simp [msRequiredList]
    refine ⟨hlist, ?_⟩
    intro key node hmem
    rw [hlist]
    constructor
    · intro hkey
      rcases List.mem_map.mp hkey with ⟨⟨k', n'⟩, hin, hk'⟩
      cases hk'
      have hsame : n' = node :=
        nodupKeys_eq hnd (List.mem_of_mem_filter hin) hmem
      subst hsame
      have := List.of_mem_filter hin
      simpa using this
    · intro hopt
      exact List.mem_map_of_mem Prod.fst
        (List.mem_filter.mpr ⟨hmem, by simp [hopt]⟩)

/-- Witness for C6 at the shape `{a: string, b: optional(string), c:
nullable(boolean)}`: the required list is exactly `["a", "c"]`, and the
nullable field `c` is required. -/
theorem required_iff_not_optional_witness :
    msRequiredList requiredExampleDesc = ["a", "c"] ∧
    ("c" ∈ msRequiredList requiredExampleDesc ↔
      isZodOptional (.zNullable .zBoolean) = false) := by
  have h := required_iff_not_optional requiredExampleShape .passthrough
    requiredExampleDesc rfl (by decide)
  exact ⟨h.1, h.2 "c" (.zNullable .zBoolean) (by simp [requiredExampleShape])⟩

/-- C7: the reverse converter attaches the entry-count refinement to an
object descriptor's schema exactly when at least one of
`minProperties`/`maxProperties` is present, and the refined schema
accepts a mapping exactly when the underlying object schema accepts it
and the mapping's entry count lies within the present bounds (an absent
bound imposes no limit on its side); with neither bound present no
refinement wrapper is attached at all. -/
theorem minmax_props_refinement (required : Option (List String))
    (props : List (String × MongoSchema)) (minProperties maxProperties : Option Nat)
    (addProps : Option (Bool ⊕ MongoSchema)) (s : ZodSchema)
    (h : mongoSchemaToZod
      (.objectS required (some props) minProperties maxProperties addProps) = .ok s) :
    isPropsRefine s = !(minProperties == none && maxProperties == none) ∧
    ∀ (r : Nat) (fields : List (String × Value)),
      (zodAccepts s (.vObj r fields) = true ↔
        (zodAccepts (stripPropsRefine s) (.vObj r fields) = true ∧
         (∀ m, minProperties = some m → m ≤ fields.length) ∧
         (∀ m, maxProperties = some m → fields.length ≤ m))) := by
  rcases hsh : mongoShapeToZod (required.getD []) props with e | shape
  · simp only [mongoSchemaToZod, hsh] at h
    exact absurd h (by simp)
  · simp only [mongoSchemaToZod, hsh] at h
    rcases minProperties with _ | mi <;> rcases maxProperties with _ | ma <;>
      simp only [show ((none : Option Nat) == none) = true from rfl,
        show ∀ v : Nat, ((some v : Option Nat) == none) = false from fun v => rfl,
        Bool.and_true, Bool.and_false, Bool.true_and, Bool.false_and,
        if_true, if_false, Bool.not_true, Bool.not_false] at h ⊢ <;>
      injection h with h <;> subst h
    · refine ⟨rfl, ?_⟩
      intro r fields
      simp [stripPropsRefine]
    · refine ⟨rfl, ?_⟩
      intro r fields
      rw [show zodAccepts
            (.zMinMaxPropsRefine (.zObject shape
              (if (match addProps with
                   | some (.inl false) => true
                   | _ => false) = true then .strict else .passthrough))
              none (some ma)) (.vObj r fields) =
          (zodAccepts (.zObject shape
              (if (match addProps with
                   | some (.inl false) => true
                   | _ => false) = true then .strict else .passthrough))
            (.vObj r fields) && decide (fields.length ≤ ma)) from by
        simp [zodAccepts]]
      rw [Bool.and_eq_true, decide_eq_true_iff]
      simp [stripPropsRefine]
    · refine ⟨rfl, ?_⟩
      intro r fields
      rw [show zodAccepts
            (.zMinMaxPropsRefine (.zObject shape
              (if (match addProps with
                   | some (.inl false) => true
                   | _ => false) = true then .strict else .passthrough))
              (some mi) none) (.vObj r fields) =
          (zodAccepts (.zObject shape
              (if (match addProps with
                   | some (.inl false) => true
                   | _ => false) = true then .strict else .passthrough))
            (.vObj r fields) && decide (mi ≤ fields.length)) from by
        simp [zodAccepts]]
      rw [Bool.and_eq_true, decide_eq_true_iff]
      simp [stripPropsRefine]
    · refine ⟨rfl, ?_⟩
      intro r fields
      rw [show zodAccepts
            (.zMinMaxPropsRefine (.zObject shape
              (if (match addProps with
                   | some (.inl false) => true
                   | _ => false) = true then .strict else .passthrough))
              (some mi) (some ma)) (.vObj r fields) =
          (zodAccepts (.zObject shape
              (if (match addProps with
                   | some (.inl false) => true
                   | _ => false) = true then .strict else .passthrough))
            (.vObj r fields) &&
            (decide (mi ≤ fields.length) && decide (fields.length ≤ ma))) from by
        simp [zodAccepts]]
      rw [Bool.and_eq_true, Bool.and_eq_true, decide_eq_true_iff, decide_eq_true_iff]
      simp [stripPropsRefine, and_assoc]

/-- Witness for C7 at the spec's example descriptor (`minProperties 1`,
`maxProperties 2`, field `a` not required): the converted schema rejects
the empty mapping and accepts a one-field mapping. -/
theorem minmax_props_refinement_witness :
    zodAccepts minMaxPropsSchema (.vObj 0 []) = false ∧
    zodAccepts minMaxPropsSchema (.vObj 0 [("a", .vStr "x")]) = true := by
  have h := minmax_props_refinement none [("a", .stringS none none none none)]
    (some 1) (some 2) none minMaxPropsSchema rfl
  constructor
  · cases hacc : zodAccepts minMaxPropsSchema (.vObj 0 []) with
    | false => rfl
    | true =>
        have hbad := ((h.2 0 []).mp hacc).2.1 1 rfl
        exact absurd hbad (by simp)
  · exact (h.2 0 [("a", .vStr "x")]).mpr
      ⟨rfl, fun m hm => by injection hm with hm; subst hm; decide,
        fun m hm => by injection hm with hm; subst hm; decide⟩

lemma setInsert_length_le (seen : List Value) (v : Value) :
    (setInsert seen v).length ≤ seen.length + 1 := by
  unfold setInsert
  split
  · omega
  · simp

lemma foldl_setInsert_length_le (xs : List Value) :
    ∀ seen, (List.foldl setInsert seen xs).length ≤ seen.length + xs.length := by
  induction xs with
  | nil => intro seen; simp
  | cons x xs ih =>
      intro seen
      rw [List.foldl_cons]
      have h1 := ih (setInsert seen x)
      have h2 := setInsert_length_le seen x
      simp only [List.length_cons]
      omega

lemma foldl_setInsert_length_eq_iff (xs : List Value) :
    ∀ (seen : List Value),
      ((List.foldl setInsert seen xs).length = seen.length + xs.length ↔
        (List.Pairwise (fun a b => sameValueZero a b = false) xs ∧
         ∀ x ∈ xs, ∀ w ∈ seen, sameValueZero w x = false)) := by
  induction xs with
  | nil => intro seen; simp
  | cons x xs ih =>
      intro seen
      rw [List.foldl_cons, List.length_cons]
      cases hany : seen.any (fun w => sameValueZero w x) with
      | true =>
          have hins : setInsert seen x = seen := by simp [setInsert, hany]
          rw [hins]
          have hle := foldl_setInsert_length_le xs seen
          constructor
          · intro habs; omega
          · rintro ⟨-, hall⟩
            rcases List.any_eq_true.mp hany with ⟨w, hw, hsvz⟩
            rw [hall x (List.mem_cons_self x xs) w hw] at hsvz
            cases hsvz
      | false =>
          have hins : setInsert seen x = seen ++ [x] := by simp [setInsert, hany]
          have hseen : ∀ w ∈ seen, sameValueZero w x = false := by
            intro w hw
            cases hvw : sameValueZero w x with
            | false => rfl
            | true =>
                exfalso
                have : seen.any (fun w => sameValueZero w x) = true :=
                  List.any_eq_true.mpr ⟨w, hw, hvw⟩
                rw [hany] at this
                cases this
          rw [hins,
            show seen.length + (xs.length + 1) = (seen ++ [x]).length + xs.length from by
              simp [List.length_append]; omega,
            ih (seen ++ [x])]
          constructor
          · rintro ⟨hpw, hall⟩
            refine ⟨List.pairwise_cons.mpr ⟨fun y hy => hall y hy x (by simp), hpw⟩, ?_⟩
            intro y hy w hw
            rcases List.mem_cons.mp hy with rfl | hy'
            · exact hseen w hw
            · exact hall y hy' w (by simp [hw])
          · rintro ⟨hpw, hall⟩
            have hx := List.pairwise_cons.mp hpw
            refine ⟨hx.2, ?_⟩
            intro y hy w hw
            rcases List.mem_append.mp hw with hw' | hw''
            · exact hall y (List.mem_cons_of_mem x hy) w hw'
            · have hwx : w = x := by simpa using hw''
              subst hwx
              exact hx.1 y hy

lemma uniquePred_iff (xs : List Value) :
    uniquePred xs = true ↔
      List.Pairwise (fun a b => sameValueZero a b = false) xs := by
  unfold uniquePred setOf
  rw [beq_iff_eq]
  have h := foldl_setInsert_length_eq_iff xs []
  simp only [List.length_nil, Nat.zero_add] at h
  rw [h]
  simp

/-- C2 counterexample: the uniqueness refinement produced for a
`uniqueItems` descriptor ACCEPTS an array of two structurally equal but
distinct (separately allocated) objects — `new Set` membership compares
objects by reference, not by full-value equality — contradicting the
claim that such a sequence is rejected. -/
theorem unique_refinement_not_structural :
    mongoSchemaToZod uniqueObjectArrayDesc = .ok uniqueObjectArraySchema ∧
    structEq objectOne objectTwo = true ∧
    objectOne ≠ objectTwo ∧
    zodAccepts uniqueObjectArraySchema (.vArr 0 [objectOne, objectTwo]) = true :=
  ⟨rfl, rfl, by simp [objectOne, objectTwo], rfl⟩

/-- C2 (amended): the uniqueness refinement attached for `uniqueItems`
rejects a sequence exactly when it contains two elements equal under
JavaScript `Set` membership equality (SameValueZero: value equality for
primitives, reference identity for objects); in particular it accepts
`["x","y"]` and rejects `["x","x"]`, while a sequence of two structurally
equal but distinct object values is accepted. -/
theorem unique_refinement_uses_set_equality (items : MongoSchema ⊕ List MongoSchema)
    (minItems maxItems : Option Nat) (s : ZodSchema)
    (h : mongoSchemaToZod (.arrayS items minItems maxItems (some true)) = .ok s) :
    (∃ element, s = .zUniqueRefine (.zArray element minItems maxItems) ∧
      ∀ (r : Nat) (xs : List Value),
        (zodAccepts s (.vArr r xs) = true ↔
          (zodAccepts (.zArray element minItems maxItems) (.vArr r xs) = true ∧
           List.Pairwise (fun a b => sameValueZero a b = false) xs))) ∧
    (mongoSchemaToZod uniqueStringArrayDesc = .ok uniqueStringArraySchema ∧
     zodAccepts uniqueStringArraySchema (.vArr 0 [.vStr "x", .vStr "y"]) = true ∧
     zodAccepts uniqueStringArraySchema (.vArr 0 [.vStr "x", .vStr "x"]) = false) := by
  refine ⟨?_, rfl, rfl, rfl⟩
  rcases hit : mongoItemsToZod items with e | element
  · simp only [mongoSchemaToZod, hit] at h
    exact absurd h (by simp)
  · have hred : mongoSchemaToZod (.arrayS items minItems maxItems (some true)) =
        .ok (.zUniqueRefine (.zArray element minItems maxItems)) := by
      simp only [mongoSchemaToZod, hit]
      rfl
    rw [hred] at h
    injection h with h
    subst h
    refine ⟨element, rfl, ?_⟩
    intro r xs
    rw [show zodAccepts (.zUniqueRefine (.zArray element minItems maxItems)) (.vArr r xs) =
        (zodAccepts (.zArray element minItems maxItems) (.vArr r xs) && uniquePred xs) from
      rfl]
    rw [Bool.and_eq_true, uniquePred_iff]

/-- Witness for the amended C2 at the spec's string-array descriptor. -/
theorem unique_refinement_uses_set_equality_witness :
    (∃ element, uniqueStringArraySchema = .zUniqueRefine (.zArray element none none) ∧
      ∀ (r : Nat) (xs : List Value),
        (zodAccepts uniqueStringArraySchema (.vArr r xs) = true ↔
          (zodAccepts (.zArray element none none) (.vArr r xs) = true ∧
           List.Pairwise (fun a b => sameValueZero a b = false) xs))) ∧
    (mongoSchemaToZod uniqueStringArrayDesc = .ok uniqueStringArraySchema ∧
     zodAccepts uniqueStringArraySchema (.vArr 0 [.vStr "x", .vStr "y"]) = true ∧
     zodAccepts uniqueStringArraySchema (.vArr 0 [.vStr "x", .vStr "x"]) = false) :=
  unique_refinement_uses_set_equality (.inl (.stringS none none none none)) none none
    uniqueStringArraySchema rfl

end Zodson
